import Mathlib

/-!
Shallow embedding of the DeepResearch agent pipeline
(`src/deepresearch_agent.py`): the Retriever (`ResearchAgent.search` /
`ResearchAgent._clean_search_results`), the Synthesizer
(`ResearchAgent.summarize`, `summarize_node`) and the top-level
`run_agent` entry point.  Python strings are modelled as lists of
code points (`List Char`); the external search provider and the
external summarization model are modelled as explicit parameters.
-/

set_option autoImplicit false

namespace DeepResearch

/-- A Python string: a sequence of code points. -/
abbrev Str := List Char

/-- Python `str.strip()`: drop whitespace from both ends. -/
def strip (s : Str) : Str :=
  ((s.dropWhile Char.isWhitespace).reverse.dropWhile Char.isWhitespace).reverse

/-- Python `str.split(sep)` for a one-character separator `c`:
split at every occurrence of `c`, keeping empty segments. -/
def splitOnChar (c : Char) : Str → List Str
  | [] => [[]]
  | a :: rest =>
    if a = c then [] :: splitOnChar c rest
    else
      match splitOnChar c rest with
      | [] => [[a]]
      | s :: ss => (a :: s) :: ss

/-- Helper for Python whitespace-splitting (`str.split()` with no
argument): accumulate the current word (reversed) while scanning. -/
def wordsAux : Str → Str → List Str
  | [], cur => if cur = [] then [] else [cur.reverse]
  | c :: rest, cur =>
    if c.isWhitespace then
      if cur = [] then wordsAux rest [] else cur.reverse :: wordsAux rest []
    else wordsAux rest (c :: cur)

/-- Python `str.split()`: the maximal whitespace-free words of `s`. -/
def words (s : Str) : List Str := wordsAux s []

/-- `len(text.split())`: the whitespace-delimited word count. -/
def wordCount (s : Str) : Nat := (words s).length

/-- Python truthiness-based alias chaining
`d.get(k1) or d.get(k2) or ... or ''`: the first present and
non-empty value, else the empty string. -/
def firstTruthy : List (Option Str) → Str
  | [] => []
  | some s :: rest => if s = [] then firstTruthy rest else s
  | none :: rest => firstTruthy rest

/-- The claim's reading of alias resolution: the first *present* value
(even if empty), else the empty string. -/
def firstPresent : List (Option Str) → Str
  | [] => []
  | some s :: _ => s
  | none :: rest => firstPresent rest

/-- A raw search-provider record (a dict of unspecified shape); the
fields of interest, each possibly absent. -/
structure RawResult where
  href : Option Str := none
  url : Option Str := none
  title : Option Str := none
  body : Option Str := none
  description : Option Str := none
  content : Option Str := none
deriving DecidableEq

/-- A normalized document produced by `_clean_search_results`. -/
structure Document where
  title : Str
  content : Str
  url : Str
  source : Str
deriving DecidableEq

/-- `title.split('—')[-1].strip() if '—' in title else
title.split('-')[-1].strip()` (line 55 of the source). -/
def deriveSource (title : Str) : Str :=
  if '—' ∈ title then strip ((splitOnChar '—' title).getLastD [])
  else strip ((splitOnChar '-' title).getLastD [])

/-- The document appended for an accepted raw result (lines 57-62). -/
def mkDoc (r : RawResult) : Document :=
  { title := (r.title.getD []).take 200
    content := (firstTruthy [r.body, r.description, r.content]).take 500
    url := firstTruthy [r.href, r.url]
    source := (deriveSource (r.title.getD [])).take 100 }

/-- The loop of `_clean_search_results`, with `seen` the collection of
urls already accepted (Python `seen_urls`). -/
def cleanAux : List RawResult → List Str → List Document
  | [], _ => []
  | r :: rest, seen =>
    if firstTruthy [r.href, r.url] = [] ∨ r.title.getD [] = [] ∨
        firstTruthy [r.href, r.url] ∈ seen then
      cleanAux rest seen
    else mkDoc r :: cleanAux rest (firstTruthy [r.href, r.url] :: seen)

/-- `ResearchAgent._clean_search_results`: normalize, deduplicate by
url, and keep the first 5 accepted documents (`cleaned[:5]`). -/
def cleanSearchResults (results : List RawResult) : List Document :=
  (cleanAux results []).take 5

/-- `ResearchAgent.search`: the provider call is modelled as an
explicit `Except`-valued argument (its `error` case is Python's raised
exception, caught and mapped to `[]`). -/
def search (provider : Except Unit (List RawResult)) (query : Str) :
    List Document :=
  if query = [] ∨ (strip query).length < 3 then []
  else
    match provider with
    | Except.ok rs => cleanSearchResults rs
    | Except.error _ => []

/-- The external summarization model (`self.summarizer` when loaded):
given the text and the `max_length` / `min_length` arguments it either
raises (`Except.error`) or returns the list of `summary_text` values. -/
abbrev Summarizer := Str → Nat → Nat → Except Unit (List Str)

/-- `"Нет данных для суммаризации"` (line 78). -/
def noDataMsg : Str := "Нет данных для суммаризации".data

/-- `"Не удалось создать краткое содержание"` (line 92). -/
def emptyResultMsg : Str := "Не удалось создать краткое содержание".data

/-- `"Ошибка при создании краткого содержания"` (line 95). -/
def summErrMsg : Str := "Ошибка при создании краткого содержания".data

/-- `max_len = min(130, max(30, word_count // 2))` (line 84). -/
def maxLenOf (w : Nat) : Nat := min 130 (max 30 (w / 2))

/-- `min_len = min(30, max_len // 2)` (line 85). -/
def minLenOf (w : Nat) : Nat := min 30 (maxLenOf w / 2)

/-- Lines 86-95: call the model and unpack
`result[0]["summary_text"] if result else ...`, mapping a raised
exception to the fixed error marker. -/
def applySummarizer (f : Summarizer) (t : Str) (maxLen minLen : Nat) : Str :=
  match f t maxLen minLen with
  | Except.ok (s :: _) => s
  | Except.ok [] => emptyResultMsg
  | Except.error _ => summErrMsg

/-- `ResearchAgent.summarize` (lines 76-95); `sz = none` models a
summarizer that failed to initialize (`self.summarizer is None`). -/
def summarize : Option Summarizer → Str → Str
  | none, _ => noDataMsg
  | some f, text =>
    if text = [] then noDataMsg
    else if wordCount (strip text) < 10 then strip text
    else
      applySummarizer f (strip text) (maxLenOf (wordCount (strip text)))
        (minLenOf (wordCount (strip text)))

/-- A cleaned result viewed again as a dict by `summarize_node`
(each `.get` may in principle miss its key). -/
structure ResultRec where
  title : Option Str := none
  content : Option Str := none
  url : Option Str := none
  source : Option Str := none
deriving DecidableEq

/-- A cleaned document carries exactly the four keys. -/
def Document.toRec (d : Document) : ResultRec :=
  { title := some d.title, content := some d.content
    url := some d.url, source := some d.source }

/-- A source link exposed to the UI. -/
structure Link where
  title : Str
  url : Str
  source : Str
deriving DecidableEq

/-- The link built in `summarize_node` (lines 127-131):
`result.get('title', 'Ссылка').split('—')[0].strip()`,
`result.get('url', '#')`, `result.get('source', 'Неизвестный источник')`. -/
def mkLink (r : ResultRec) : Link :=
  { title := strip ((splitOnChar '—' (r.title.getD ("Ссылка".data))).headD [])
    url := r.url.getD ("#".data)
    source := r.source.getD ("Неизвестный источник".data) }

/-- The text block `f"{title}\n{content}"` prefixed by the `"\n\n"`
separator that the loop prepends on every iteration (lines 124-125). -/
def textBlock (r : ResultRec) : Str :=
  '\n' :: '\n' :: (r.title.getD [] ++ '\n' :: r.content.getD [])

/-- The aggregate summary computed by `summarize_node` (lines 117-134):
`agent.summarize(combined_text.strip())`. -/
def nodeSummary (sz : Option Summarizer) (results : List ResultRec) : Str :=
  summarize sz (strip ((results.take 5).map textBlock).flatten)

/-- `summarize_node` (lines 109-139): the summary (with its own empty
fallback) and the links, both capped at 5. -/
def summarizeNode (sz : Option Summarizer) (results : List ResultRec) :
    Str × List Link :=
  if results = [] then ("Результаты не найдены.".data, [])
  else
    (if nodeSummary sz results = [] then "Нет результатов".data
     else nodeSummary sz results,
     ((results.take 5).map mkLink).take 5)

/-- `"Запрос должен содержать минимум 3 символа."` (line 158). -/
def shortQueryMsg : Str := "Запрос должен содержать минимум 3 символа.".data

/-- `"Источники не найдены"` (line 180). -/
def noSourcesMsg : Str := "Источники не найдены".data

/-- The text of lines 172-173 up to the url placeholder. -/
def linkPre : Str := "<div style=\"margin-bottom: 8px;\"><a href=\"".data

/-- The text of line 173 between the url and the title. -/
def linkMid1 : Str :=
  "\" target=\"_blank\" style=\"text-decoration: none; color: #1E90FF; font-weight: bold;\">".data

/-- The text of line 174 between the title and the source. -/
def linkMid2 : Str := "</a> — <span style=\"color: #555;\">".data

/-- The text of lines 174-175 after the source. -/
def linkPost : Str := "</span></div>".data

/-- The HTML fragment built for one link (lines 171-176). -/
def renderLink (l : Link) : Str :=
  linkPre ++ l.url ++ linkMid1 ++ l.title ++ linkMid2 ++ l.source ++ linkPost

/-- The links markup of `run_agent` (lines 165-181): fragments for the
links with a truthy url, joined, with a fixed placeholder when none. -/
def linksMarkup (links : List Link) : Str :=
  if (links.filter (fun l => l.url ≠ [])).map renderLink = [] then noSourcesMsg
  else ((links.filter (fun l => l.url ≠ [])).map renderLink).flatten

/-- The document list the pipeline hands to `summarize_node`:
`run_agent` strips the query (line 160), `search_node` strips it again
(line 103). -/
def pipelineDocs (provider : Except Unit (List RawResult)) (query : Str) :
    List Document :=
  search provider (strip (strip query))

/-- The link list produced by the pipeline and then capped again by
`run_agent` (`output.get('links', [])[:5]`, line 162). -/
def agentLinks (provider : Except Unit (List RawResult))
    (sz : Option Summarizer) (query : Str) : List Link :=
  ((summarizeNode sz ((pipelineDocs provider query).map Document.toRec)).2).take 5

/-- `run_agent` (lines 155-181): the summary text and the links markup. -/
def runAgent (provider : Except Unit (List RawResult))
    (sz : Option Summarizer) (query : Str) : Str × Str :=
  if query = [] ∨ (strip query).length < 3 then (shortQueryMsg, [])
  else
    ((summarizeNode sz ((pipelineDocs provider query).map Document.toRec)).1,
     linksMarkup (agentLinks provider sz query))

/-- A raw result with all three fields of interest present. -/
def rawSite : RawResult :=
  { href := some ("http://x".data), title := some ("Site — Author".data)
    body := some ("Some body".data) }

/-- A raw result whose `href` is present but empty while `url` is not. -/
def rawEmptyHref : RawResult :=
  { href := some [], url := some ("http://x".data), title := some ("T".data) }

/-- A raw result missing both url aliases. -/
def rawNoUrl : RawResult := { title := some ("T".data) }

/-- A cleaned record whose title uses a hyphen, not an em-dash. -/
def recHyphen : ResultRec :=
  { title := some ("A - B".data), url := some ("http://x".data)
    source := some ("B".data) }

/-- A cleaned record whose title uses an em-dash. -/
def recDash : ResultRec :=
  { title := some ("Site — Author".data), url := some ("http://x".data)
    source := some ("Author".data) }

/-- A five-word text, below the summarization threshold. -/
def fiveWords : Str := "a b c d e".data

/-- A ten-word text, at the summarization threshold. -/
def wText : Str := "a b c d e f g h i j".data

/-- A summarizer stub that returns a fixed summary. -/
def wSumm : Summarizer := fun _ _ _ => Except.ok ["S".data]

/-- A summarizer stub that always raises. -/
def errSumm : Summarizer := fun _ _ _ => Except.error ()

/-! ## Lemmas about the embedded operations -/

theorem splitOnChar_ne_nil (c : Char) (l : Str) : splitOnChar c l ≠ [] := by
  induction l with
  | nil => simp [splitOnChar]
  | cons a rest ih =>
    unfold splitOnChar
    split
    · simp
    · rcases hs : splitOnChar c rest with _ | ⟨s, ss⟩
      · exact absurd hs ih
      · simp [hs]

theorem splitOnChar_headD (c : Char) (l : Str) :
    (splitOnChar c l).headD [] = l.takeWhile (fun a => a ≠ c) := by
  induction l with
  | nil => simp [splitOnChar]
  | cons a rest ih =>
    unfold splitOnChar
    by_cases hac : a = c
    · simp [hac, List.takeWhile_cons]
    · rcases hs : splitOnChar c rest with _ | ⟨s, ss⟩
      · exact absurd hs (splitOnChar_ne_nil c rest)
      · have ih2 := ih
        rw [hs] at ih2
        simp only [List.headD_cons] at ih2
        simp [hac, hs, List.takeWhile_cons, ih2]

theorem splitOnChar_not_mem (c : Char) {l : Str} (h : c ∉ l) :
    splitOnChar c l = [l] := by
  induction l with
  | nil => simp [splitOnChar]
  | cons a rest ih =>
    rw [List.mem_cons, not_or] at h
    obtain ⟨h1, h2⟩ := h
    unfold splitOnChar
    rw [if_neg (fun e => h1 e.symm), ih h2]

theorem deriveSource_no_sep {t : Str} (h1 : '—' ∉ t) (h2 : '-' ∉ t) :
    deriveSource t = strip t := by
  unfold deriveSource
  rw [if_neg h1, splitOnChar_not_mem '-' h2]
  rfl

theorem cleanAux_mem {rs : List RawResult} {seen : List Str} {d : Document}
    (h : d ∈ cleanAux rs seen) :
    ∃ r ∈ rs, d = mkDoc r ∧ firstTruthy [r.href, r.url] ≠ [] ∧
      r.title.getD [] ≠ [] := by
  induction rs generalizing seen with
  | nil => simp [cleanAux] at h
  | cons r rest ih =>
    simp only [cleanAux] at h
    by_cases hc : firstTruthy [r.href, r.url] = [] ∨ r.title.getD [] = [] ∨
        firstTruthy [r.href, r.url] ∈ seen
    · rw [if_pos hc] at h
      obtain ⟨r', hr', hrest⟩ := ih h
      exact ⟨r', List.mem_cons_of_mem _ hr', hrest⟩
    · rw [if_neg hc] at h
      push_neg at hc
      rcases List.mem_cons.mp h with hd | hd
      · exact ⟨r, List.mem_cons_self r rest, hd, hc.1, hc.2.1⟩
      · obtain ⟨r', hr', hrest⟩ := ih hd
        exact ⟨r', List.mem_cons_of_mem _ hr', hrest⟩

theorem cleanAux_nodup (rs : List RawResult) (seen : List Str) :
    ((cleanAux rs seen).map Document.url).Nodup ∧
    ∀ u ∈ (cleanAux rs seen).map Document.url, u ∉ seen := by
  induction rs generalizing seen with
  | nil => simp [cleanAux]
  | cons r rest ih =>
    simp only [cleanAux]
    by_cases hc : firstTruthy [r.href, r.url] = [] ∨ r.title.getD [] = [] ∨
        firstTruthy [r.href, r.url] ∈ seen
    · rw [if_pos hc]
      exact ih seen
    · rw [if_neg hc]
      push_neg at hc
      obtain ⟨ih1, ih2⟩ := ih (firstTruthy [r.href, r.url] :: seen)
      constructor
      · simp only [List.map_cons]
        refine List.nodup_cons.mpr ⟨?_, ih1⟩
        intro hmem
        exact (ih2 _ hmem) (List.mem_cons_self _ _)
      · intro u hu
        simp only [List.map_cons, List.mem_cons] at hu
        rcases hu with rfl | hu
        · exact hc.2.2
        · intro hus
          exact (ih2 u hu) (List.mem_cons_of_mem _ hus)

theorem cleanAux_sublist (rs : List RawResult) (seen : List Str) :
    List.Sublist ((cleanAux rs seen).map Document.url)
      (rs.map (fun r => firstTruthy [r.href, r.url])) := by
  induction rs generalizing seen with
  | nil => simp [cleanAux]
  | cons r rest ih =>
    simp only [cleanAux, List.map_cons]
    by_cases hc : firstTruthy [r.href, r.url] = [] ∨ r.title.getD [] = [] ∨
        firstTruthy [r.href, r.url] ∈ seen
    · rw [if_pos hc]
      exact List.Sublist.cons _ (ih seen)
    · rw [if_neg hc]
      simp only [List.map_cons]
      exact List.Sublist.cons₂ _ (ih _)

theorem cleanSearchResults_url_ne {rs : List RawResult} {d : Document}
    (h : d ∈ cleanSearchResults rs) : d.url ≠ [] := by
  have h5 : d ∈ cleanAux rs [] := List.take_subset 5 _ h
  obtain ⟨r, _, rfl, hurl, _⟩ := cleanAux_mem h5
  exact hurl

theorem search_url_ne {p : Except Unit (List RawResult)} {q : Str}
    {d : Document} (h : d ∈ search p q) : d.url ≠ [] := by
  unfold search at h
  split at h
  · simp at h
  · split at h
    · exact cleanSearchResults_url_ne h
    · simp at h

theorem agentLinks_url_ne {p : Except Unit (List RawResult)}
    {sz : Option Summarizer} {q : Str} {l : Link}
    (h : l ∈ agentLinks p sz q) : l.url ≠ [] := by
  unfold agentLinks at h
  have h1 := List.take_subset 5 _ h
  unfold summarizeNode at h1
  split at h1
  · simp at h1
  · simp only at h1
    have h2 := List.take_subset 5 _ h1
    obtain ⟨rec, hrec, hl⟩ := List.mem_map.mp h2
    have h3 := List.take_subset 5 _ hrec
    obtain ⟨d, hd, hdr⟩ := List.mem_map.mp h3
    have hu : d.url ≠ [] := search_url_ne hd
    rw [← hl, ← hdr]
    exact hu

theorem linkPre_split :
    linkPre = "<div style=\"margin-bottom: 8px;\">".data ++ "<a href=\"".data := by
  decide

theorem linkMid2_split :
    linkMid2 = "</a>".data ++ " — ".data ++
      "<span style=\"color: #555;\">".data := by
  decide

/-! ## The claims -/

/-- Claim C1: for every batch of raw results, `_clean_search_results`
returns documents with pairwise distinct urls, at most 5 of them, and
their urls form a subsequence of the resolved urls of the raw batch,
i.e. accepted documents appear in provider-return order. -/
theorem spec_c1 (rs : List RawResult) :
    ((cleanSearchResults rs).map Document.url).Nodup ∧
    (cleanSearchResults rs).length ≤ 5 ∧
    List.Sublist ((cleanSearchResults rs).map Document.url)
      (rs.map (fun r => firstTruthy [r.href, r.url])) := by
  have htake : List.Sublist ((cleanSearchResults rs).map Document.url)
      ((cleanAux rs []).map Document.url) :=
    List.Sublist.map _ (List.take_sublist 5 _)
  refine ⟨List.Nodup.sublist htake (cleanAux_nodup rs []).1, ?_, ?_⟩
  · unfold cleanSearchResults
    rw [List.length_take]
    exact min_le_left _ _
  · exact List.Sublist.trans htake (cleanAux_sublist rs [])

/-- Claim C2: for a text of at least 10 whitespace-delimited words,
`summarize` invokes the model with exactly
`max_len = min(130, max(30, W // 2))` and `min_len = min(30, max_len // 2)`;
for `W = 300` the bounds satisfy `30 ≤ min_len ≤ max_len ≤ 130`. -/
theorem spec_c2 (f : Summarizer) (text : Str)
    (h10 : 10 ≤ wordCount (strip text)) :
    summarize (some f) text
      = applySummarizer f (strip text)
          (min 130 (max 30 (wordCount (strip text) / 2)))
          (min 30 (min 130 (max 30 (wordCount (strip text) / 2)) / 2)) ∧
    (wordCount (strip text) = 300 →
      30 ≤ minLenOf 300 ∧ minLenOf 300 ≤ maxLenOf 300 ∧ maxLenOf 300 ≤ 130) := by
  have hne : text ≠ [] := by
    intro e
    rw [e] at h10
    exact absurd h10 (by decide)
  constructor
  · simp only [summarize]
    rw [if_neg hne, if_neg (by omega)]
    rfl
  · intro _
    decide

/-- Witness for C2 at a concrete 10-word text and a stub summarizer. -/
theorem spec_c2_witness : summarize (some wSumm) wText = "S".data :=
  (spec_c2 wSumm wText (by decide)).1.trans (by decide)

/-- Counterexample to C3 as stated: when the summarization model failed
to initialize, a non-empty 5-word text is *not* returned verbatim —
the fixed no-data marker is returned instead. -/
theorem spec_c3_cex :
    summarize none fiveWords ≠ strip fiveWords ∧
    summarize none fiveWords = noDataMsg := by
  decide

/-- Claim C3 (amended: provided the summarization capability
initialized successfully): a non-empty text of fewer than 10 words is
returned trimmed and verbatim, for every summarizer — so the model is
never consulted. -/
theorem spec_c3_thm (f : Summarizer) (text : Str) (hne : text ≠ [])
    (h : wordCount (strip text) < 10) :
    summarize (some f) text = strip text := by
  simp only [summarize]
  rw [if_neg hne, if_pos h]

/-- Witness for the amended C3 at a concrete 5-word text. -/
theorem spec_c3_witness : summarize (some wSumm) fiveWords = strip fiveWords :=
  spec_c3_thm wSumm fiveWords (by decide) (by decide)

/-- Claim C4: every accepted document's `source` is derived from the
raw title by the em-dash/hyphen last-segment rule (trimmed, truncated
to 100); with neither separator present the rule yields the trimmed
title; on the spec's examples it yields `"B"`. -/
theorem spec_c4 :
    (∀ (rs : List RawResult), ∀ d ∈ cleanSearchResults rs,
      ∃ r ∈ rs, d.source = (deriveSource (r.title.getD [])).take 100) ∧
    (∀ t : Str, '—' ∉ t → '-' ∉ t →
      (deriveSource t).take 100 = (strip t).take 100) ∧
    deriveSource ("A — B".data) = "B".data ∧
    deriveSource ("A - B".data) = "B".data := by
  refine ⟨?_, ?_, by decide, by decide⟩
  · intro rs d hd
    have h5 : d ∈ cleanAux rs [] := List.take_subset 5 _ hd
    obtain ⟨r, hr, rfl, -, -⟩ := cleanAux_mem h5
    exact ⟨r, hr, rfl⟩
  · intro t h1 h2
    rw [deriveSource_no_sep h1 h2]

/-- Witness for C4 at a concrete raw result and a separator-free title. -/
theorem spec_c4_witness :
    (∃ r ∈ [rawSite], (mkDoc rawSite).source
      = (deriveSource (r.title.getD [])).take 100) ∧
    (deriveSource ("Title".data)).take 100 = (strip ("Title".data)).take 100 :=
  ⟨spec_c4.1 [rawSite] (mkDoc rawSite) (by decide),
   spec_c4.2.1 ("Title".data) (by decide) (by decide)⟩

/-- Counterexample to C5 as stated: for a title containing a hyphen
but no em-dash, the link title is the whole title, not the portion
before the hyphen — only the em-dash acts as a separator here. -/
theorem spec_c5_cex :
    (mkLink recHyphen).title = "A - B".data ∧
    (mkLink recHyphen).title ≠ "A".data := by
  decide

/-- Claim C5 (amended): the link title is the portion of the original
title before the first em-dash (the hyphen is not a separator here),
trimmed; the placeholders `'Ссылка'`, `'#'` and
`'Неизвестный источник'` apply exactly when the respective key is
absent. -/
theorem spec_c5_thm (r : ResultRec) :
    (∀ t, r.title = some t →
      (mkLink r).title = strip (t.takeWhile (fun a => a ≠ '—'))) ∧
    (r.title = none → (mkLink r).title = "Ссылка".data) ∧
    (∀ u, r.url = some u → (mkLink r).url = u) ∧
    (r.url = none → (mkLink r).url = "#".data) ∧
    (∀ s, r.source = some s → (mkLink r).source = s) ∧
    (r.source = none → (mkLink r).source = "Неизвестный источник".data) := by
  refine ⟨?_, ?_, ?_, ?_, ?_, ?_⟩
  · intro t ht
    have hm : (mkLink r).title = strip ((splitOnChar '—' t).headD []) := by
      simp [mkLink, ht]
    rw [hm, splitOnChar_headD]
  · intro ht
    simp only [mkLink, ht]
    decide
  · intro u hu
    simp [mkLink, hu]
  · intro hu
    simp [mkLink, hu]
  · intro s hs
    simp [mkLink, hs]
  · intro hs
    simp [mkLink, hs]

/-- Witness for the amended C5 at a concrete em-dash title. -/
theorem spec_c5_witness :
    (mkLink recDash).title
      = strip (("Site — Author".data).takeWhile (fun a => a ≠ '—')) :=
  (spec_c5_thm recDash).1 ("Site — Author".data) rfl

/-- Counterexample to C6 as stated: a raw result whose `href` is
present but empty and whose `url` is non-empty resolves, per the
claim's first-present rule, to an empty url and should be skipped —
yet the code accepts it (the chain skips falsy aliases). -/
theorem spec_c6_cex :
    firstPresent [rawEmptyHref.href, rawEmptyHref.url] = [] ∧
    (cleanSearchResults [rawEmptyHref]).length = 1 := by
  decide

/-- Claim C6 (amended): the url is the first present *and non-empty*
alias among `href`, `url` (likewise for content among `body`,
`description`, `content`); a record is skipped exactly when the
resolved url is empty, the title is empty, or the url was seen
earlier; a record missing both url aliases is always skipped. -/
theorem spec_c6_thm :
    (∀ (r : RawResult) (rest : List RawResult) (seen : List Str),
      ((firstTruthy [r.href, r.url] = [] ∨ r.title.getD [] = [] ∨
          firstTruthy [r.href, r.url] ∈ seen) →
        cleanAux (r :: rest) seen = cleanAux rest seen) ∧
      (¬(firstTruthy [r.href, r.url] = [] ∨ r.title.getD [] = [] ∨
          firstTruthy [r.href, r.url] ∈ seen) →
        cleanAux (r :: rest) seen
          = mkDoc r :: cleanAux rest (firstTruthy [r.href, r.url] :: seen))) ∧
    (∀ (r : RawResult), r.href = none → r.url = none →
      ∀ (rest : List RawResult) (seen : List Str),
        cleanAux (r :: rest) seen = cleanAux rest seen) := by
  refine ⟨fun r rest seen => ⟨fun h => ?_, fun h => ?_⟩, ?_⟩
  · simp only [cleanAux]
    rw [if_pos h]
  · simp only [cleanAux]
    rw [if_neg h]
  · intro r h1 h2 rest seen
    simp only [cleanAux]
    rw [if_pos (Or.inl (by rw [h1, h2]; rfl))]

/-- Witness for the amended C6: a record with no url aliases is skipped. -/
theorem spec_c6_witness : cleanAux [rawNoUrl] [] = cleanAux [] [] :=
  spec_c6_thm.2 rawNoUrl rfl rfl [] []

/-- Claim C7: a query that is empty or shorter than 3 trimmed
characters makes `search` return `[]` for every provider (the provider
is never consulted) and makes `run_agent` return the fixed validation
message with empty links markup, for every provider and summarizer. -/
theorem spec_c7 (query : Str) (h : (strip query).length < 3) :
    (∀ p, search p query = []) ∧
    (∀ p sz, runAgent p sz query = (shortQueryMsg, [])) := by
  constructor
  · intro p
    unfold search
    rw [if_pos (Or.inr h)]
  · intro p sz
    unfold runAgent
    rw [if_pos (Or.inr h)]

/-- Witness for C7 at the concrete query `"ab"`. -/
theorem spec_c7_witness :
    search (Except.ok []) ("ab".data) = [] ∧
    runAgent (Except.ok []) none ("ab".data) = (shortQueryMsg, []) :=
  ⟨(spec_c7 ("ab".data) (by decide)).1 _,
   (spec_c7 ("ab".data) (by decide)).2 _ _⟩

/-- Claim C8: a failing provider yields `[]` from `search` for every
query; an uninitialized summarizer makes `summarize` return the fixed
no-data marker; a summarizer whose call raises makes it return the
distinct fixed error marker. -/
theorem spec_c8 :
    (∀ (q : Str), search (Except.error ()) q = []) ∧
    (∀ (text : Str), summarize none text = noDataMsg) ∧
    (∀ (text : Str) (f : Summarizer),
      (∀ t a b, f t a b = Except.error ()) → text ≠ [] →
      10 ≤ wordCount (strip text) → summarize (some f) text = summErrMsg) ∧
    noDataMsg ≠ summErrMsg := by
  refine ⟨?_, ?_, ?_, by decide⟩
  · intro q
    unfold search
    split
    · rfl
    · rfl
  · intro text
    rfl
  · intro text f hf hne h10
    simp only [summarize]
    rw [if_neg hne, if_neg (by omega)]
    unfold applySummarizer
    rw [hf]

/-- Witness for C8 at a concrete 10-word text and the raising stub. -/
theorem spec_c8_witness : summarize (some errSumm) wText = summErrMsg :=
  spec_c8.2.2.1 wText errSumm (fun _ _ _ => rfl) (by decide) (by decide)

/-- Claim C9: past input validation, when the pipeline yields no links
the emitted markup is the fixed placeholder; when it yields links the
markup is the concatenation of one fragment per link, and each
fragment contains an anchor at the link's url, its title, the visual
separator, and its source. -/
theorem spec_c9 (p : Except Unit (List RawResult)) (sz : Option Summarizer)
    (query : Str) (h : ¬(query = [] ∨ (strip query).length < 3)) :
    (agentLinks p sz query = [] → (runAgent p sz query).2 = noSourcesMsg) ∧
    (agentLinks p sz query ≠ [] →
      (runAgent p sz query).2 = ((agentLinks p sz query).map renderLink).flatten ∧
      ∀ l ∈ agentLinks p sz query,
        List.IsInfix ("<a href=\"".data ++ l.url) (renderLink l) ∧
        List.IsInfix l.title (renderLink l) ∧
        List.IsInfix (" — ".data) (renderLink l) ∧
        List.IsInfix l.source (renderLink l)) := by
  have hr : (runAgent p sz query).2 = linksMarkup (agentLinks p sz query) := by
    unfold runAgent
    rw [if_neg h]
  have hfilter : (agentLinks p sz query).filter (fun l => l.url ≠ [])
      = agentLinks p sz query := by
    apply List.filter_eq_self.mpr
    intro l hl
    simpa using agentLinks_url_ne hl
  constructor
  · intro hnil
    rw [hr]
    unfold linksMarkup
    rw [hfilter, hnil]
    simp
  · intro hne
    constructor
    · rw [hr]
      unfold linksMarkup
      rw [hfilter, if_neg (fun e => hne (List.map_eq_nil_iff.mp e))]
    · intro l _
      refine ⟨⟨"<div style=\"margin-bottom: 8px;\">".data,
          linkMid1 ++ l.title ++ linkMid2 ++ l.source ++ linkPost, ?_⟩,
        ⟨linkPre ++ l.url ++ linkMid1, linkMid2 ++ l.source ++ linkPost, ?_⟩,
        ⟨linkPre ++ l.url ++ linkMid1 ++ l.title ++ "</a>".data,
          "<span style=\"color: #555;\">".data ++ l.source ++ linkPost, ?_⟩,
        ⟨linkPre ++ l.url ++ linkMid1 ++ l.title ++ linkMid2, linkPost, ?_⟩⟩
      · simp [renderLink, linkPre_split, List.append_assoc]
      · simp [renderLink, List.append_assoc]
      · simp [renderLink, linkMid2_split, List.append_assoc]
      · simp [renderLink, List.append_assoc]

/-- Witness for C9: a concrete valid query with one provider result. -/
theorem spec_c9_witness :
    (runAgent (Except.ok [rawSite]) none ("abc".data)).2
      = ((agentLinks (Except.ok [rawSite]) none ("abc".data)).map
          renderLink).flatten :=
  ((spec_c9 (Except.ok [rawSite]) none ("abc".data) (by decide)).2
    (by decide)).1

/-- Claim C10: for every word count `W ≥ 10`, `min_len` lies in
`[15, 30]` and never exceeds `max_len`; for `10 ≤ W ≤ 60`, `max_len`
is 30 and `min_len` is 15, strictly below 30. -/
theorem spec_c10 (w : Nat) (h : 10 ≤ w) :
    15 ≤ minLenOf w ∧ minLenOf w ≤ 30 ∧ minLenOf w ≤ maxLenOf w ∧
    (w ≤ 60 → maxLenOf w = 30 ∧ minLenOf w = 15) := by
  unfold minLenOf maxLenOf
  omega

/-- Witness for C10 at `W = 10`. -/
theorem spec_c10_witness : maxLenOf 10 = 30 ∧ minLenOf 10 = 15 :=
  (spec_c10 10 (by decide)).2.2.2 (by decide)

end DeepResearch
